import Mathlib

/-!
Shallow embedding of `src/server.js` of BionicPixel/GroceryBilling: an
Express + socket.io server keeping in-memory `products` and `orders`
arrays, broadcasting mutations to connected sockets, and running a
per-connection application-level heartbeat loop.

JavaScript values appearing in the relevant code paths are modelled by
`JsVal` (numbers restricted to integers, which covers every claim under
study); the HTTP handlers are modelled as pure functions from server
state and request data to updated state, response and the list of
`io.emit` calls performed; the per-connection heartbeat closure
(`missedPings`, `setInterval`, `socket.on('pong')`,
`socket.on('disconnect')`) is modelled as an explicit state machine
driven by a list of actions.
-/

/-- A JavaScript value, restricted to the shapes the studied code paths
use: `undefined`, `null`, booleans, (integer) numbers and strings. -/
inductive JsVal where
  | undef : JsVal
  | null : JsVal
  | bool (b : Bool) : JsVal
  | num (n : Int) : JsVal
  | str (s : String) : JsVal
deriving DecidableEq, Repr

/-- JavaScript truthiness of a `JsVal` (`!v` in the source negates it):
`undefined`, `null`, `false`, `0` and `""` are falsy. -/
def JsVal.truthy : JsVal → Bool
  | .undef => false
  | .null => false
  | .bool b => b
  | .num n => n != 0
  | .str s => s != ""

/-- JavaScript `ToNumber` on a string, restricted to (optionally signed)
decimal integer literals: `""` converts to `0`, a digit string to its
value, anything else (modelled as `none`) to `NaN`, which is equal to
nothing under `==`. -/
def jsStrToInt (s : String) : Option Int :=
  let digits (cs : List Char) : Option Nat :=
    cs.foldl (fun acc c =>
      match acc with
      | none => none
      | some n => if c.isDigit then some (n * 10 + (c.toNat - 48)) else none)
      (some 0)
  match s.toList with
  | [] => some 0
  | '-' :: [] => none
  | '-' :: rest => (digits rest).map (fun n => -(n : Int))
  | cs => (digits cs).map (fun n => (n : Int))

/-- JavaScript loose equality `v == s` between a stored value and a route
parameter (always a string): strings compare as strings, a number
compares with the string converted by `ToNumber`, a boolean is first
converted to `0`/`1`, and `null`/`undefined` are never loosely equal to
a string. Used by `p.id == req.params.id` in the source. -/
def looseEqStr : JsVal → String → Bool
  | .str a, s => a == s
  | .num n, s => jsStrToInt s == some n
  | .bool b, s => jsStrToInt s == some (if b then (1 : Int) else 0)
  | .null, _ => false
  | .undef, _ => false

/-- A stored product: the spread `{...req.body, addedAt: new Date()}`.
`name` and `price` are kept at the types the read paths assume
(`p.name.toLowerCase()`, `p.price >= ...`); the remaining required
fields are opaque `JsVal`s. -/
structure Product where
  id : JsVal
  name : String
  price : Int
  units : JsVal
  taken : JsVal
  payable : JsVal
  addedAt : Nat
deriving DecidableEq, Repr

/-- The parsed JSON body of `POST /product`. A field absent from the
request body reads as `undefined`. -/
structure ProductBody where
  id : JsVal
  name : String
  price : Int
  units : JsVal
  taken : JsVal
  payable : JsVal
deriving DecidableEq, Repr

/-- The required-field names checked by `POST /product`. -/
inductive PField where
  | id | name | price | units | taken | payable
deriving DecidableEq, Repr

/-- `requiredFields = ['id', 'name', 'price', 'units', 'taken', 'payable']`. -/
def requiredFields : List PField :=
  [.id, .name, .price, .units, .taken, .payable]

/-- Truthiness of `req.body[field]` for each required field
(the validation predicate is `!req.body[field]`). -/
def ProductBody.fieldTruthy (b : ProductBody) : PField → Bool
  | .id => b.id.truthy
  | .name => b.name != ""
  | .price => b.price != 0
  | .units => b.units.truthy
  | .taken => b.taken.truthy
  | .payable => b.payable.truthy

/-- A stored order: `{...req.body, id: order_<now>, createdAt, status}`;
the items are opaque payloads. -/
structure Order where
  items : List JsVal
  id : String
  createdAt : Nat
  status : String
deriving DecidableEq, Repr

/-- A connection-log entry (`connectionLogs.push(...)`): the event kind
with, for disconnects, the reason string the transport supplied. -/
inductive ConnEvent where
  | connect (sid : Nat) : ConnEvent
  | disconnect (sid : Nat) (reason : String) : ConnEvent
deriving DecidableEq, Repr

/-- The payload of one `emit` call. -/
inductive Payload where
  | prod (p : Product) : Payload
  | prods (ps : List Product) : Payload
  | ord (o : Order) : Payload
  | idVal (v : JsVal) : Payload
deriving DecidableEq, Repr

/-- One `io.emit`/`socket.emit` call: the event name and its payload
(`none` when the source passes no payload, as in `products_reset`). -/
structure Emit where
  event : String
  payload : Option Payload
deriving DecidableEq, Repr

/-- The server's shared mutable state: the `products` and `orders`
arrays, the append-only `connectionLogs`, and the set of currently
connected socket ids (socket.io's registry, read by `io.emit`). -/
structure ServerState where
  products : List Product
  orders : List Order
  connectionLogs : List ConnEvent
  sockets : List Nat
deriving DecidableEq, Repr

/-- `io.emit(ev, payload)` delivers one copy of the event to every
socket currently connected, and to no other socket. -/
def deliverAll (st : ServerState) (es : List Emit) : List (Nat × Emit) :=
  es.flatMap (fun e => st.sockets.map (fun c => (c, e)))

/-- An HTTP response, restricted to what the studied handlers produce. -/
inductive Resp where
  | createdProduct (p : Product) : Resp
  | createdOrder (o : Order) : Resp
  | badRequest (missing : List PField) : Resp
  | badOrder : Resp
  | notFound : Resp
  | okList (count : Nat) (data : List Product) : Resp
  | okProduct (p : Product) : Resp
  | okDeleted (p : Product) : Resp
  | okReset : Resp
deriving DecidableEq, Repr

/-- The product stored by `POST /product`: the validated body spread
together with the `addedAt` timestamp. -/
def mkProduct (b : ProductBody) (now : Nat) : Product :=
  { id := b.id, name := b.name, price := b.price, units := b.units,
    taken := b.taken, payable := b.payable, addedAt := now }

/-- `POST /product` (src/server.js:149-181): reject with 400 when any
required field is falsy, otherwise push the product and
`io.emit('new_product', product)`. -/
def postProduct (st : ServerState) (b : ProductBody) (now : Nat) :
    ServerState × Resp × List Emit :=
  let missingFields := requiredFields.filter (fun f => !(b.fieldTruthy f))
  if missingFields.length > 0 then
    (st, .badRequest missingFields, [])
  else
    let product := mkProduct b now
    ({ st with products := st.products ++ [product] },
     .createdProduct product,
     [⟨"new_product", some (.prod product)⟩])

/-- `POST /products/reset` (src/server.js:184-191): clear the array and
`io.emit('products_reset')` with no payload. -/
def postProductsReset (st : ServerState) : ServerState × Resp × List Emit :=
  ({ st with products := [] }, .okReset, [⟨"products_reset", none⟩])

/-- `needle` matches at the head of the second list. -/
def charsLeadMatch : List Char → List Char → Bool
  | [], _ => true
  | _ :: _, [] => false
  | a :: as, b :: bs => a == b && charsLeadMatch as bs

/-- `needle` occurs contiguously somewhere in the second list. -/
def charsContain (needle : List Char) : List Char → Bool
  | [] => needle.isEmpty
  | c :: rest => charsLeadMatch needle (c :: rest) || charsContain needle rest

/-- JavaScript `hay.includes(needle)` on strings. -/
def strIncludes (hay needle : String) : Bool :=
  charsContain needle.toList hay.toList

/-- JavaScript `toLowerCase` on one character, restricted to ASCII
(the only case the studied data exercises): map `A..Z` to `a..z`. -/
def charLower (c : Char) : Char :=
  if c.toNat ≥ 65 && c.toNat ≤ 90 then Char.ofNat (c.toNat + 32) else c

/-- JavaScript `s.toLowerCase()` restricted to ASCII. -/
def strLower (s : String) : String :=
  ⟨s.toList.map charLower⟩

/-- JavaScript truthiness of an optional query-string parameter:
absent (`none`) or empty are falsy. -/
def queryTruthy : Option String → Bool
  | none => false
  | some s => s != ""

/-- The three sequential filters of `GET /product`
(src/server.js:194-217), applied to a copy of `products`. The price
query parameters are modelled as already-parsed integers: `some v`
stands for a provided, truthy, numeric query string whose `parseFloat`
is `v`; `none` for an absent or falsy one. -/
def filterProducts (ps : List Product) (nameQ : Option String)
    (minQ maxQ : Option Int) : List Product :=
  let fp1 :=
    if queryTruthy nameQ then
      ps.filter (fun p => strIncludes (strLower p.name) (strLower (nameQ.getD "")))
    else ps
  let fp2 :=
    match minQ with
    | some v => fp1.filter (fun p => v ≤ p.price)
    | none => fp1
  match maxQ with
  | some v => fp2.filter (fun p => p.price ≤ v)
  | none => fp2

/-- `GET /product` (src/server.js:194-217): a pure read returning the
filtered products and their count. -/
def getProducts (st : ServerState) (nameQ : Option String)
    (minQ maxQ : Option Int) : ServerState × Resp × List Emit :=
  let fp := filterProducts st.products nameQ minQ maxQ
  (st, .okList fp.length fp, [])

/-- `GET /product/:id` (src/server.js:220-234): find by loose equality
`p.id == req.params.id`, 404 when absent. -/
def getProductById (st : ServerState) (idParam : String) :
    ServerState × Resp × List Emit :=
  match st.products.find? (fun p => looseEqStr p.id idParam) with
  | none => (st, .notFound, [])
  | some p => (st, .okProduct p, [])

/-- `DELETE /product/:id` (src/server.js:236-253): `findIndex` with
loose equality; 404 when absent, otherwise `splice` out the product and
`io.emit('product_deleted', deletedProduct.id)`. The inner `[]` branch
is unreachable since `findIdx?` returns an index inside the list. -/
def deleteProduct (st : ServerState) (idParam : String) :
    ServerState × Resp × List Emit :=
  match st.products.findIdx? (fun p => looseEqStr p.id idParam) with
  | none => (st, .notFound, [])
  | some i =>
    match st.products.drop i with
    | [] => (st, .notFound, [])
    | deleted :: rest =>
      ({ st with products := st.products.take i ++ rest },
       .okDeleted deleted,
       [⟨"product_deleted", some (.idVal deleted.id)⟩])

/-- The order stored by `POST /checkout`: the body's items with the
server-assigned id built from `Date.now()`, timestamp and status. -/
def mkOrder (its : List JsVal) (now : Nat) : Order :=
  { items := its, id := "order_" ++ toString now, createdAt := now,
    status := "pending" }

/-- `POST /checkout` (src/server.js:256-287): reject with 400 when
`items` is absent, not an array (both modelled as `none`) or empty;
otherwise push the order and `io.emit('new_order', order)`. -/
def postCheckout (st : ServerState) (items : Option (List JsVal))
    (now : Nat) : ServerState × Resp × List Emit :=
  match items with
  | none => (st, .badOrder, [])
  | some its =>
    if its.length = 0 then (st, .badOrder, [])
    else
      let order := mkOrder its now
      ({ st with orders := st.orders ++ [order] },
       .createdOrder order,
       [⟨"new_order", some (.ord order)⟩])

/-- `io.on('connection')` handler (src/server.js:51-65): socket.io adds
the socket to its registry, the handler appends one connect log entry
and sends the current products to the new socket only
(`socket.emit('init_products', products)`). The second component lists
the point-to-point deliveries performed. -/
def onConnection (st : ServerState) (sid : Nat) :
    ServerState × List (Nat × Emit) :=
  ({ st with connectionLogs := st.connectionLogs ++ [.connect sid],
             sockets := st.sockets ++ [sid] },
   [(sid, ⟨"init_products", some (.prods st.products)⟩)])

/-- The state held by the per-connection heartbeat closure
(src/server.js:67-90): the `missedPings` counter, whether the
`setInterval` timer is still installed (cleared by the disconnect
handler), and whether the socket is still connected. -/
structure Conn where
  missedPings : Nat
  timerActive : Bool
  connected : Bool
deriving DecidableEq, Repr

/-- The state right after registration: `let missedPings = 0` with the
interval installed and the socket connected. -/
def connInit : Conn := { missedPings := 0, timerActive := true, connected := true }

/-- `socket.on('disconnect')` handler (src/server.js:81-90): fired once
by socket.io on any disconnect path with the transport-supplied reason;
it clears the heartbeat interval and appends a disconnect log entry
carrying that reason. -/
def runDisconnectHandler (c : Conn) (reason : String) : Conn × List String :=
  ({ c with timerActive := false, connected := false }, [reason])

/-- The reason socket.io passes to the `disconnect` handler when the
server itself calls `socket.disconnect(true)` (modelled from socket.io's
documented semantics; the string "liveness timeout" occurs nowhere in
the source). -/
def serverDisconnectReason : String := "server namespace disconnect"

/-- External events driving one connection's heartbeat machinery:
an interval tick, a `pong` from the client, or a transport-reported
disconnect (client-initiated close or transport error). -/
inductive HbAction where
  | tick : HbAction
  | pong : HbAction
  | clientDisc (reason : String) : HbAction
deriving DecidableEq, Repr

/-- One event step. `tick` is the `setInterval` callback
(src/server.js:69-75), which fires only while the interval is not
cleared: when `missedPings > 2` it calls `socket.disconnect(true)`,
which (on a still-connected socket) synchronously fires the disconnect
handler — clearing the interval and logging — and then the callback
still increments `missedPings` and emits a `ping` probe, which reaches
the client only if the socket is still connected. `pong` is the
`socket.on('pong')` handler (src/server.js:77-79) resetting
`missedPings` to 0. `clientDisc r` fires the disconnect handler with
reason `r` unless the socket is already gone. Outputs: the number of
probes delivered to the client, and the disconnect reasons logged. -/
def hbStep (c : Conn) : HbAction → Conn × Nat × List String
  | .tick =>
    if !c.timerActive then (c, 0, [])
    else
      let hd :=
        if c.missedPings > 2 && c.connected then
          runDisconnectHandler c serverDisconnectReason
        else (c, [])
      ({ hd.1 with missedPings := hd.1.missedPings + 1 },
       if hd.1.connected then 1 else 0, hd.2)
  | .pong =>
    if c.connected then ({ c with missedPings := 0 }, 0, []) else (c, 0, [])
  | .clientDisc r =>
    if c.connected then
      ((runDisconnectHandler c r).1, 0, (runDisconnectHandler c r).2)
    else (c, 0, [])

/-- Run a sequence of heartbeat events, accumulating delivered probes
and logged disconnect reasons. -/
def hbRun (c : Conn) : List HbAction → Conn × Nat × List String
  | [] => (c, 0, [])
  | a :: as =>
    ((hbRun (hbStep c a).1 as).1,
     (hbStep c a).2.1 + (hbRun (hbStep c a).1 as).2.1,
     (hbStep c a).2.2 ++ (hbRun (hbStep c a).1 as).2.2)

/-- `n` probe intervals elapsing on a connection that never answers:
the schedule of a client that never sends `pong`. -/
def hbTicks (n : Nat) : Conn × Nat × List String :=
  hbRun connInit (List.replicate n .tick)

/-- The schedule of a client that sends `pong` before every interval
tick, for `n` rounds. -/
def pongRounds : Nat → List HbAction
  | 0 => []
  | n + 1 => .pong :: .tick :: pongRounds n

/-! ## General lemmas about the heartbeat machinery -/

/-- Running a concatenated schedule splits into the two runs, with
probes added and logs concatenated. -/
theorem hbRun_append (c : Conn) (as bs : List HbAction) :
    hbRun c (as ++ bs) =
      ((hbRun (hbRun c as).1 bs).1,
       (hbRun c as).2.1 + (hbRun (hbRun c as).1 bs).2.1,
       (hbRun c as).2.2 ++ (hbRun (hbRun c as).1 bs).2.2) := by
  induction as generalizing c with
  | nil => simp [hbRun]
  | cons a as ih =>
    simp [hbRun, ih, Nat.add_assoc]

/-- A cleared interval never fires again: ticks on a state whose timer
is stopped change nothing, deliver nothing and log nothing. -/
theorem hbRun_tick_inactive (c : Conn) (n : Nat) (h : c.timerActive = false) :
    hbRun c (List.replicate n .tick) = (c, 0, []) := by
  induction n with
  | zero => rfl
  | succ k ih =>
    have hs : hbStep c .tick = (c, 0, []) := by simp [hbStep, h]
    simp [List.replicate_succ, hbRun, hs, ih]

/-- Once the socket is disconnected, no schedule ever delivers a probe
to the client again, and the socket never reconnects. -/
theorem hbRun_dead_no_probe (as : List HbAction) : ∀ c : Conn,
    c.connected = false →
    (hbRun c as).2.1 = 0 ∧ (hbRun c as).1.connected = false := by
  induction as with
  | nil => intro c h; exact ⟨rfl, h⟩
  | cons a as ih =>
    intro c h
    have hstep : (hbStep c a).1.connected = false ∧ (hbStep c a).2.1 = 0 := by
      cases a with
      | tick => cases ht : c.timerActive <;> simp [hbStep, ht, h]
      | pong => simp [hbStep, h]
      | clientDisc r => simp [hbStep, h]
    obtain ⟨ih1, ih2⟩ := ih (hbStep c a).1 hstep.1
    exact ⟨by simp [hbRun, hstep.2, ih1], by simp [hbRun, ih2]⟩

/-- A client answering `pong` before every tick keeps `missedPings`
below the threshold forever, whatever the counter held before. -/
theorem hbRun_pong_alive (n : Nat) : ∀ m : Nat,
    (hbRun ⟨m, true, true⟩ (pongRounds n)).1.connected = true ∧
    (hbRun ⟨m, true, true⟩ (pongRounds n)).2.2 = [] := by
  induction n with
  | zero => intro m; exact ⟨rfl, rfl⟩
  | succ k ih =>
    intro m
    have h2 : hbStep (⟨m, true, true⟩ : Conn) .pong = (⟨0, true, true⟩, 0, []) := rfl
    have h3 : hbStep (⟨0, true, true⟩ : Conn) .tick = (⟨1, true, true⟩, 1, []) := rfl
    have hres := ih 1
    simp [pongRounds, hbRun, h2, h3]
    exact hres

/-! ## Claims C1, C5, C6: liveness monitoring -/

/-- C1 counterexample: a connection that never answers a probe is NOT
evicted after `threshold+1 = 3` probe intervals — after 3 ticks it is
still connected and no Disconnect event has been recorded; the eviction
actually logged (on the 4th tick) carries socket.io's own reason, not
`"liveness timeout"`. -/
theorem C1_counterexample :
    (hbTicks 3).1.connected = true ∧ (hbTicks 3).2.2 = [] ∧
    (hbTicks 4).2.2 = [serverDisconnectReason] ∧
    (hbTicks 4).2.2 ≠ ["liveness timeout"] := by
  refine ⟨rfl, rfl, rfl, ?_⟩
  decide

/-- C1 (amended): a connection that is registered and never answers a
probe is evicted after exactly `threshold+2 = 4` probe intervals — after
`n < 4` ticks it is still connected with nothing logged, and from the
4th tick on it is disconnected with a single Disconnect event whose
reason is the transport-supplied `"server namespace disconnect"`, not
`"liveness timeout"`. -/
theorem C1_silent_evicted_after_four (n : Nat) :
    (hbTicks n).1.connected = decide (n < 4) ∧
    (hbTicks n).2.2 = (if n < 4 then [] else [serverDisconnectReason]) := by
  rcases Nat.lt_or_ge n 4 with h | h
  · interval_cases n <;> exact ⟨rfl, rfl⟩
  · obtain ⟨m, rfl⟩ := Nat.exists_eq_add_of_le h
    have key : hbTicks (4 + m) =
        (({ missedPings := 4, timerActive := false, connected := false } : Conn),
         3, [serverDisconnectReason]) := by
      show hbRun connInit (List.replicate (4 + m) .tick) = _
      rw [List.replicate_add, hbRun_append]
      have h4 : hbRun connInit (List.replicate 4 .tick) =
          ({ missedPings := 4, timerActive := false, connected := false }, 3,
           [serverDisconnectReason]) := rfl
      rw [h4, hbRun_tick_inactive _ m rfl]
      rfl
    have hnot : ¬(4 + m < 4) := by omega
    rw [key]
    exact ⟨by simp [hnot], by simp [hnot]⟩

/-- C5: a registered connection that answers with `pong` before every
probe-interval tick is never evicted, for schedules of any length: it
stays connected and no Disconnect event is ever recorded. -/
theorem C5_responsive_never_evicted (n : Nat) :
    (hbRun connInit (pongRounds n)).1.connected = true ∧
    (hbRun connInit (pongRounds n)).2.2 = [] :=
  hbRun_pong_alive n 0

/-- C6: on every deregistration path the heartbeat timer is stopped at
the instant the disconnect handler runs, and no probe is delivered to
the connection afterwards: (a) a client-initiated or transport-error
disconnect clears the interval and every later schedule delivers 0
probes; (b) eviction by the monitor clears the interval, delivers no
probe even on the evicting tick, and every later schedule delivers 0
probes. -/
theorem C6_deregistration_stops_probes (c : Conn) (r : String)
    (as : List HbAction) (hconn : c.connected = true) :
    ((hbStep c (.clientDisc r)).1.timerActive = false ∧
      (hbRun (hbStep c (.clientDisc r)).1 as).2.1 = 0) ∧
    (c.timerActive = true → c.missedPings > 2 →
      ((hbStep c .tick).1.timerActive = false ∧
       (hbStep c .tick).2.1 = 0 ∧
       (hbRun (hbStep c .tick).1 as).2.1 = 0)) := by
  constructor
  · have hdisc : (hbStep c (.clientDisc r)).1 =
        ⟨c.missedPings, false, false⟩ := by
      simp [hbStep, hconn, runDisconnectHandler]
    exact ⟨by rw [hdisc], (hbRun_dead_no_probe as _ (by rw [hdisc])).1⟩
  · intro ht hm
    have hstep : hbStep c .tick =
        (⟨c.missedPings + 1, false, false⟩, 0, [serverDisconnectReason]) := by
      simp [hbStep, ht, hconn, decide_eq_true hm, runDisconnectHandler]
    exact ⟨by rw [hstep], by rw [hstep],
      (hbRun_dead_no_probe as _ (by rw [hstep])).1⟩

/-- A concrete alive connection state about to miss its grace window. -/
def cDemo : Conn := ⟨3, true, true⟩

/-- C6 witness: at the concrete state `cDemo`, both deregistration paths
stop the timer and no probe is delivered on a two-tick follow-up
schedule. -/
theorem C6_witness :
    ((hbStep cDemo (.clientDisc "transport close")).1.timerActive = false ∧
     (hbRun (hbStep cDemo (.clientDisc "transport close")).1
        [.tick, .tick]).2.1 = 0) ∧
    ((hbStep cDemo .tick).1.timerActive = false ∧
     (hbStep cDemo .tick).2.1 = 0 ∧
     (hbRun (hbStep cDemo .tick).1 [.tick, .tick]).2.1 = 0) := by
  have h := C6_deregistration_stops_probes cDemo "transport close"
    [.tick, .tick] rfl
  exact ⟨h.1, h.2 rfl (by decide)⟩

/-! ## General lemmas about the store handlers -/

/-- On a body whose required fields are all truthy, `POST /product`
takes the success branch: append the product, answer 201 and emit one
`new_product` event. -/
theorem postProduct_valid_eq (st : ServerState) (b : ProductBody) (now : Nat)
    (hvalid : ∀ f ∈ requiredFields, b.fieldTruthy f = true) :
    postProduct st b now =
      ({ st with products := st.products ++ [mkProduct b now] },
       .createdProduct (mkProduct b now),
       [⟨"new_product", some (.prod (mkProduct b now))⟩]) := by
  have hfil : requiredFields.filter (fun f => !(b.fieldTruthy f)) = [] := by
    rw [List.filter_eq_nil_iff]
    intro f hf
    simp [hvalid f hf]
  simp [postProduct, hfil]

/-- On a body with some falsy required field, `POST /product` takes the
reject branch: state untouched, 400 response, no emit. -/
theorem postProduct_invalid_eq (st : ServerState) (b : ProductBody)
    (now : Nat) (f : PField) (hf : f ∈ requiredFields)
    (hfalsy : b.fieldTruthy f = false) :
    postProduct st b now =
      (st, .badRequest (requiredFields.filter (fun g => !(b.fieldTruthy g))),
       []) := by
  have hmem : f ∈ requiredFields.filter (fun g => !(b.fieldTruthy g)) := by
    simp [List.mem_filter, hf, hfalsy]
  have hlen : 0 < (requiredFields.filter (fun g => !(b.fieldTruthy g))).length :=
    List.length_pos.mpr (List.ne_nil_of_mem hmem)
  simp [postProduct, hlen]

/-- From a successful `findIndex`, the list splits at the found index:
the element there satisfies the predicate and belongs to the list. -/
theorem findIdx?_found_split {α : Type} {q : α → Bool} {l : List α} {i : Nat}
    (h : l.findIdx? q = some i) :
    ∃ y, l.drop i = y :: l.drop (i + 1) ∧ q y = true ∧ y ∈ l ∧
      i < l.length := by
  rw [List.findIdx?_eq_some_iff_getElem] at h
  obtain ⟨hlt, hq, -⟩ := h
  exact ⟨l[i], List.drop_eq_getElem_cons hlt, hq, List.getElem_mem hlt, hlt⟩

/-- When `findIndex` succeeds, `DELETE /product/:id` splices out the
found product and emits its id. -/
theorem deleteProduct_found (st : ServerState) (idParam : String) (i : Nat)
    (hfind : st.products.findIdx? (fun p => looseEqStr p.id idParam) = some i) :
    ∃ dp, st.products.drop i = dp :: st.products.drop (i + 1) ∧
      looseEqStr dp.id idParam = true ∧ dp ∈ st.products ∧
      deleteProduct st idParam =
        ({ st with products := st.products.take i ++ st.products.drop (i + 1) },
         .okDeleted dp,
         [⟨"product_deleted", some (.idVal dp.id)⟩]) ∧
      i < st.products.length := by
  obtain ⟨dp, hdrop, hq, hmem, hlt⟩ := findIdx?_found_split hfind
  refine ⟨dp, hdrop, hq, hmem, ?_, hlt⟩
  simp [deleteProduct, hfind, hdrop]

/-! ## Claims C2, C4, C9, C10: the store operations -/

/-- The empty server state. -/
def emptyStore : ServerState :=
  { products := [], orders := [], connectionLogs := [], sockets := [] }

/-- A stored product with id `"p1"`. -/
def c4Prod : Product :=
  { id := .str "p1", name := "Widget", price := 10, units := .num 5,
    taken := .num 1, payable := .bool true, addedAt := 0 }

/-- A store already holding a product with id `"p1"`. -/
def dupStore : ServerState :=
  { products := [c4Prod], orders := [], connectionLogs := [], sockets := [] }

/-- A valid creation body reusing the already-present id `"p1"`. -/
def dupBody : ProductBody :=
  { id := .str "p1", name := "Gadget", price := 7, units := .num 2,
    taken := .num 1, payable := .bool true }

/-- C2 counterexample: creating a product whose id is already present
succeeds and leaves TWO entries with that id in the store — the
creation path appends unconditionally and never replaces by id, so the
snapshot does not contain the id exactly once. -/
theorem C2_counterexample :
    (postProduct dupStore dupBody 1).2.1 =
      Resp.createdProduct (mkProduct dupBody 1) ∧
    (postProduct dupStore dupBody 1).1.products.countP
      (fun p => p.id == JsVal.str "p1") = 2 := by
  exact ⟨rfl, rfl⟩

/-- C2 (amended): the creation path appends the new entity
unconditionally (no replacement by id), so an immediately following
snapshot contains it as the last element, and the number of entries
bearing its id grows by exactly one — in particular an id already
present ends up duplicated rather than replaced. -/
theorem C2_upsert_appends (st : ServerState) (b : ProductBody) (now : Nat)
    (hvalid : ∀ f ∈ requiredFields, b.fieldTruthy f = true) :
    (postProduct st b now).1.products = st.products ++ [mkProduct b now] ∧
    (postProduct st b now).1.products.countP (fun p => p.id == b.id) =
      st.products.countP (fun p => p.id == b.id) + 1 := by
  rw [postProduct_valid_eq st b now hvalid]
  refine ⟨rfl, ?_⟩
  simp [List.countP_append, List.countP_cons, mkProduct]

/-- C2 witness: the amended statement at the concrete duplicate store. -/
theorem C2_witness :
    (postProduct dupStore dupBody 1).1.products =
      dupStore.products ++ [mkProduct dupBody 1] ∧
    (postProduct dupStore dupBody 1).1.products.countP
      (fun p => p.id == dupBody.id) =
      dupStore.products.countP (fun p => p.id == dupBody.id) + 1 :=
  C2_upsert_appends dupStore dupBody 1 (by decide)

/-- C4: `Remove(id)`: when no stored product's id loosely matches the
parameter, the handler answers NotFound, the state is unchanged and
nothing is emitted; when one matches, the first matching product is
removed from the store and returned. -/
theorem C4_remove (st : ServerState) (idParam : String) :
    (st.products.findIdx? (fun p => looseEqStr p.id idParam) = none →
      deleteProduct st idParam = (st, .notFound, [])) ∧
    (∀ i, st.products.findIdx? (fun p => looseEqStr p.id idParam) = some i →
      ∃ dp, looseEqStr dp.id idParam = true ∧ dp ∈ st.products ∧
        (deleteProduct st idParam).2.1 = .okDeleted dp ∧
        (deleteProduct st idParam).2.2 =
          [⟨"product_deleted", some (.idVal dp.id)⟩] ∧
        (deleteProduct st idParam).1.products =
          st.products.take i ++ st.products.drop (i + 1)) := by
  constructor
  · intro hnone
    simp [deleteProduct, hnone]
  · intro i hfind
    obtain ⟨dp, hdrop, hq, hmem, heq, hlt⟩ :=
      deleteProduct_found st idParam i hfind
    exact ⟨dp, hq, hmem, by rw [heq], by rw [heq], by rw [heq]⟩

/-- A store holding only `c4Prod`. -/
def c4Store : ServerState :=
  { products := [c4Prod], orders := [], connectionLogs := [], sockets := [1] }

/-- C4 witness: removing `"p1"` from the empty store is NotFound with
nothing changed or emitted; removing it from a store holding it returns
the product and empties the store. -/
theorem C4_witness :
    deleteProduct emptyStore "p1" = (emptyStore, .notFound, []) ∧
    (deleteProduct c4Store "p1").2.1 = .okDeleted c4Prod ∧
    (deleteProduct c4Store "p1").1.products = [] := by
  refine ⟨(C4_remove emptyStore "p1").1 rfl, ?_⟩
  obtain ⟨dp, hq, hmem, hres, hemit, hprods⟩ :=
    (C4_remove c4Store "p1").2 0 (by decide)
  have hdp : dp = c4Prod := by simpa [c4Store] using hmem
  rw [hdp] at hres
  exact ⟨hres, by simpa [c4Store] using hprods⟩

/-- A body whose price is 0 but whose other fields are truthy. -/
def price0Body : ProductBody :=
  { id := .str "p9", name := "Freebie", price := 0, units := .num 1,
    taken := .num 1, payable := .bool true }

/-- C9: a creation request with any falsy required field (absent value,
`0`, `false` or `""`) is rejected before reaching the store: the state
is unchanged, nothing is emitted, and the response is a 400 naming the
missing fields — in particular a product with price 0 can never be
created, since `price = 0` is falsy. -/
theorem C9_falsy_field_rejected (st : ServerState) (b : ProductBody)
    (now : Nat) (f : PField) (hf : f ∈ requiredFields)
    (hfalsy : b.fieldTruthy f = false) :
    (postProduct st b now).1 = st ∧
    (postProduct st b now).2.2 = [] ∧
    (postProduct st b now).2.1 =
      Resp.badRequest (requiredFields.filter (fun g => !(b.fieldTruthy g))) ∧
    requiredFields.filter (fun g => !(b.fieldTruthy g)) ≠ [] := by
  rw [postProduct_invalid_eq st b now f hf hfalsy]
  have hmem : f ∈ requiredFields.filter (fun g => !(b.fieldTruthy g)) :=
    List.mem_filter.mpr ⟨hf, by simp [hfalsy]⟩
  exact ⟨rfl, rfl, rfl, List.ne_nil_of_mem hmem⟩

/-- C9 witness: a price-0 product is rejected with the store unchanged
and no broadcast. -/
theorem C9_witness :
    (postProduct emptyStore price0Body 3).1 = emptyStore ∧
    (postProduct emptyStore price0Body 3).2.2 = [] := by
  have h := C9_falsy_field_rejected emptyStore price0Body 3 .price
    (by decide) (by decide)
  exact ⟨h.1, h.2.1⟩

/-- C10: lookup and removal match ids by JavaScript loose equality, so
a product stored with numeric id `n` is found by `GET /product/:id` and
removed by `DELETE /product/:id` when the route parameter is the string
form of `n`. -/
theorem C10_numeric_id_loose_match (st : ServerState) (p : Product)
    (n : Int) (s : String) (hparse : jsStrToInt s = some n)
    (hid : p.id = .num n) (hmem : p ∈ st.products) :
    looseEqStr p.id s = true ∧
    (∃ q, (getProductById st s).2.1 = .okProduct q ∧
      looseEqStr q.id s = true) ∧
    (∃ dq, (deleteProduct st s).2.1 = .okDeleted dq ∧
      looseEqStr dq.id s = true ∧
      (deleteProduct st s).1.products.length + 1 = st.products.length) := by
  have hloose : looseEqStr p.id s = true := by
    rw [hid]
    simp [looseEqStr, hparse]
  refine ⟨hloose, ?_, ?_⟩
  · have hsome : (st.products.find? (fun x => looseEqStr x.id s)).isSome := by
      rw [List.find?_isSome]
      exact ⟨p, hmem, hloose⟩
    obtain ⟨q, hq⟩ := Option.isSome_iff_exists.mp hsome
    have hqp := List.find?_some hq
    exact ⟨q, by simp [getProductById, hq], hqp⟩
  · have hex : (st.products.findIdx? (fun x => looseEqStr x.id s)).isSome := by
      rw [List.findIdx?_isSome, List.any_eq_true]
      exact ⟨p, hmem, hloose⟩
    obtain ⟨i, hfind⟩ := Option.isSome_iff_exists.mp hex
    obtain ⟨dp, hdrop, hq, hdmem, heq, hlt⟩ :=
      deleteProduct_found st s i hfind
    refine ⟨dp, by rw [heq], hq, ?_⟩
    have hlen : (st.products.take i ++ st.products.drop (i + 1)).length + 1 =
        st.products.length := by
      rw [List.length_append, List.length_take, List.length_drop]
      omega
    rw [heq]
    exact hlen

/-- A product stored under the numeric id `5`. -/
def c10Prod : Product :=
  { id := .num 5, name := "Numbered", price := 3, units := .num 1,
    taken := .num 1, payable := .bool true, addedAt := 0 }

/-- A store holding only `c10Prod`. -/
def c10Store : ServerState :=
  { products := [c10Prod], orders := [], connectionLogs := [], sockets := [] }

/-- C10 witness: id `5` matches the route parameter `"5"`: lookup
succeeds and deletion removes one product. -/
theorem C10_witness :
    looseEqStr c10Prod.id "5" = true ∧
    (getProductById c10Store "5").2.1 ≠ Resp.notFound ∧
    (deleteProduct c10Store "5").1.products.length + 1 =
      c10Store.products.length := by
  have h := C10_numeric_id_loose_match c10Store c10Prod 5 "5" (by decide) rfl
    (by simp [c10Store])
  refine ⟨h.1, ?_, ?_⟩
  · obtain ⟨q, hq, -⟩ := h.2.1
    rw [hq]
    simp
  · obtain ⟨dq, -, -, hlen⟩ := h.2.2
    exact hlen

/-! ## Claims C3, C7, C8: broadcasting, registration and listing -/

/-- C3: each successful mutation updates the store and then performs
exactly one emit carrying the corresponding event name and the stored
entity (its id for deletion, no payload for the reset, which the source
emits bare); and a single emit is delivered to exactly the sockets
registered at the moment of the call — one copy each, none to a
deregistered socket. -/
theorem C3_mutate_then_broadcast (st : ServerState) (b : ProductBody)
    (now : Nat) (idParam : String) (its : List JsVal)
    (hvalid : ∀ f ∈ requiredFields, b.fieldTruthy f = true)
    (hfound : (st.products.findIdx?
      (fun p => looseEqStr p.id idParam)).isSome = true)
    (hits : its ≠ []) :
    ((postProduct st b now).1.products = st.products ++ [mkProduct b now] ∧
     (postProduct st b now).2.2 =
       [⟨"new_product", some (.prod (mkProduct b now))⟩]) ∧
    (∃ dp, dp ∈ st.products ∧
      (deleteProduct st idParam).2.1 = .okDeleted dp ∧
      (deleteProduct st idParam).2.2 =
        [⟨"product_deleted", some (.idVal dp.id)⟩]) ∧
    ((postProductsReset st).1.products = [] ∧
     (postProductsReset st).2.2 = [⟨"products_reset", none⟩]) ∧
    ((postCheckout st (some its) now).1.orders =
       st.orders ++ [mkOrder its now] ∧
     (postCheckout st (some its) now).2.2 =
       [⟨"new_order", some (.ord (mkOrder its now))⟩]) ∧
    (∀ e : Emit, deliverAll st [e] = st.sockets.map (fun c => (c, e))) := by
  refine ⟨?_, ?_, ⟨rfl, rfl⟩, ?_, ?_⟩
  · rw [postProduct_valid_eq st b now hvalid]
    exact ⟨rfl, rfl⟩
  · obtain ⟨i, hfind⟩ := Option.isSome_iff_exists.mp hfound
    obtain ⟨dp, hdrop, hq, hmem, heq, hlt⟩ :=
      deleteProduct_found st idParam i hfind
    exact ⟨dp, hmem, by rw [heq], by rw [heq]⟩
  · have hlen : ¬(its.length = 0) := by simpa using hits
    simp [postCheckout, hlen, mkOrder]
  · intro e
    simp [deliverAll]

/-- A valid creation body with the fresh id `"p2"`. -/
def c3Body : ProductBody :=
  { id := .str "p2", name := "Cable", price := 4, units := .num 9,
    taken := .num 1, payable := .bool true }

/-- A store with one product and two registered sockets. -/
def c3Store : ServerState :=
  { products := [c4Prod], orders := [], connectionLogs := [],
    sockets := [1, 2] }

/-- C3 witness: at the concrete two-socket store, creation appends the
product, and a single emit is delivered once to each of the two
registered sockets. -/
theorem C3_witness :
    (postProduct c3Store c3Body 5).1.products =
      c3Store.products ++ [mkProduct c3Body 5] ∧
    deliverAll c3Store [⟨"products_reset", none⟩] =
      [(1, ⟨"products_reset", none⟩), (2, ⟨"products_reset", none⟩)] := by
  have h := C3_mutate_then_broadcast c3Store c3Body 5 "p1" [JsVal.num 1]
    (by decide) (by decide) (by decide)
  refine ⟨h.1.1, ?_⟩
  rw [h.2.2.2.2 ⟨"products_reset", none⟩]
  rfl

/-- C7: registering a new connection appends exactly one Connect event
to the connection log, and the current products snapshot is sent as a
single `init_products` message addressed to the new connection only —
the delivery list is exactly that one point-to-point message, not a
broadcast. -/
theorem C7_register_logs_and_snapshot (st : ServerState) (sid : Nat) :
    (onConnection st sid).1.connectionLogs =
      st.connectionLogs ++ [ConnEvent.connect sid] ∧
    (onConnection st sid).2 =
      [(sid, ⟨"init_products", some (.prods st.products)⟩)] :=
  ⟨rfl, rfl⟩

/-- C8: with all three filters supplied (and the name filter truthy),
`GET /product` leaves the state unchanged and returns exactly the
stored products whose lowercased name contains the lowercased query
substring and whose price lies inclusively between the bounds; the
result is moreover a sublist of the store (order preserved, nothing
duplicated). -/
theorem C8_filtering (st : ServerState) (nm : String) (a b : Int)
    (hnm : nm ≠ "") :
    getProducts st (some nm) (some a) (some b) =
      (st,
       .okList (filterProducts st.products (some nm) (some a) (some b)).length
         (filterProducts st.products (some nm) (some a) (some b)),
       []) ∧
    (∀ p : Product,
      p ∈ filterProducts st.products (some nm) (some a) (some b) ↔
        p ∈ st.products ∧ strIncludes (strLower p.name) (strLower nm) = true ∧
        a ≤ p.price ∧ p.price ≤ b) ∧
    List.Sublist (filterProducts st.products (some nm) (some a) (some b))
      st.products := by
  have htr : queryTruthy (some nm) = true := by
    simp [queryTruthy, hnm]
  have hfp : filterProducts st.products (some nm) (some a) (some b) =
      ((st.products.filter
          (fun p => strIncludes (strLower p.name) (strLower nm))).filter
        (fun p => a ≤ p.price)).filter (fun p => p.price ≤ b) := by
    simp [filterProducts, htr]
  refine ⟨rfl, ?_, ?_⟩
  · intro p
    rw [hfp]
    simp only [List.mem_filter, decide_eq_true_eq]
    tauto
  · rw [hfp]
    exact (List.filter_sublist _).trans
      ((List.filter_sublist _).trans (List.filter_sublist _))

/-- A store holding one product named "Widget" priced 10. -/
def c8Store : ServerState :=
  { products := [c4Prod], orders := [], connectionLogs := [], sockets := [] }

/-- C8 witness: filtering the concrete store by substring `"idg"` and
price bounds 5..20 keeps the state unchanged and retains "Widget". -/
theorem C8_witness :
    (getProducts c8Store (some "idg") (some 5) (some 20)).1 = c8Store ∧
    c4Prod ∈ filterProducts c8Store.products (some "idg") (some 5) (some 20) := by
  have h := C8_filtering c8Store "idg" 5 20 (by decide)
  refine ⟨by rw [h.1], ?_⟩
  exact (h.2.1 c4Prod).mpr
    ⟨by simp [c8Store], by decide, by decide, by decide⟩
